import Mathlib

/-!
Verification development for the YouTube research-report pipeline
(`src/routes/search.py`, `src/services/youtube_service.py`).

Strings are modelled as `List Char` (Python `str`).  Each Python regex used
by the code is embedded as an explicit left-to-right scanner with the same
semantics as `re.search` / `re.sub` on the patterns that actually occur:
the scanner tries a match at every position from the left and takes the
first success.  External collaborators (S3 artifact store, transcript API,
Gemini text generation) are passed in as explicit parameters/oracles, as
the code treats them as opaque calls.
-/

namespace YT

/-- Characters matched by the character class `[0-9A-Za-z_-]` used in every
video-id regex of the repository. -/
def isVidChar (c : Char) : Bool :=
  c.isAlphanum || c = '_' || c = '-'

/-- Python `int()` on a string of decimal digits. -/
def digitsToNat (ds : List Char) : Nat :=
  ds.foldl (fun a c => 10 * a + (c.toNat - 48)) 0

/-- Python's substring test `sub in s`. -/
def pyContains (sub : List Char) : List Char → Bool
  | [] => sub.isEmpty
  | c :: rest => sub.isPrefixOf (c :: rest) || pyContains sub rest

/-- Generic `re.search`-style scan: try the position matcher `p` at every
position from the left, returning the first success. -/
def scanFor (p : List Char → Option α) : List Char → Option α
  | [] => none
  | c :: rest =>
    match p (c :: rest) with
    | some a => some a
    | none => scanFor p rest

/-- The lazy group `(.*?)` followed by a closing character, with `.` not
matching a newline (Python `re` without `DOTALL`): collect characters up to
the first occurrence of `close`; fail if a newline or the end of the string
comes first. -/
def takeToClose (close : Char) : List Char → Option (List Char)
  | [] => none
  | c :: rest =>
    if c = close then some []
    else if c = '\n' then none
    else (takeToClose close rest).map (fun g => c :: g)

/-- Exactly-eleven-characters check `([0-9A-Za-z_-]{11})` at the current
position: succeed with the 11 captured characters. -/
def check11 (r : List Char) : Option (List Char) :=
  if 11 ≤ r.length ∧ (r.take 11).all isVidChar then some (r.take 11) else none

/-- Position matcher for `(?:v=|\/)([0-9A-Za-z_-]{11})`. -/
def vidIdAt : List Char → Option (List Char)
  | 'v' :: '=' :: r => check11 r
  | '/' :: r => check11 r
  | _ => none

/-- `re.search(r'(?:v=|\/)([0-9A-Za-z_-]{11})', url)` returning group 1 —
the video-id extraction used throughout `search.py` and
`youtube_service.py`. -/
def extractVideoId (url : List Char) : Option (List Char) :=
  scanFor vidIdAt url

def ytDomainS : List Char := ['y', 'o', 'u', 't', 'u', '.', 'b', 'e']

def ytPre : List Char := ytDomainS ++ ['/']

/-- Position matcher for `youtu\.be/([0-9A-Za-z_-]{11})`. -/
def youtuBeIdAt (s : List Char) : Option (List Char) :=
  if ytPre.isPrefixOf s then check11 (s.drop ytPre.length) else none

/-- Position matcher for `\[(.*?)\]` (group 1). -/
def bracketAt : List Char → Option (List Char)
  | [] => none
  | c :: r => if c = '[' then takeToClose ']' r else none

/-- Position matcher for `\((.*?)\)` (group 1). -/
def parenAt : List Char → Option (List Char)
  | [] => none
  | c :: r => if c = '(' then takeToClose ')' r else none

def hrS : List Char := "hr".data
def mS : List Char := "m".data
def sS : List Char := "s".data

/-- The human time display computed by `replace_sec_links` in
`src/services/youtube_service.py` lines 156-168: integer division and
remainder exactly as in the Python code. -/
def displayTime (seconds : Nat) : List Char :=
  if 3600 ≤ seconds then
    (Nat.repr (seconds / 3600)).data ++ hrS ++
      (Nat.repr ((seconds % 3600) / 60)).data ++ mS ++
      (Nat.repr (seconds % 60)).data ++ sS
  else if 60 ≤ seconds then
    (Nat.repr (seconds / 60)).data ++ mS ++ (Nat.repr (seconds % 60)).data ++ sS
  else
    (Nat.repr seconds).data ++ sS

def httpsS : List Char := ['h', 't', 't', 'p', 's', ':', '/', '/']

def httpsYtPre : List Char := httpsS ++ ytPre

def linkMid : List Char := [']', '('] ++ httpsYtPre

def tEq : List Char := ['?', 't', '=']

/-- The replacement string built by `replace_sec_links`
(`youtube_service.py` line 170): a markdown link
`[display](https://youtu.be/<videoId>?t=<seconds>)`. -/
def replaceSecCallback (videoId : List Char) (seconds : Nat) : List Char :=
  '[' :: (displayTime seconds ++ linkMid ++ videoId ++ tEq ++
    (Nat.repr seconds).data ++ [')'])

def secOpen : List Char := "[sec:".data

/-- Position matcher for `\[sec:(\d+)\]`: the literal `[sec:`, one or more
digits (greedy), then `]`.  Returns the parsed seconds and the rest of the
input after the match. -/
def secMatchAt (s : List Char) : Option (Nat × List Char) :=
  if secOpen.isPrefixOf s then
    let r := s.drop secOpen.length
    let ds := r.takeWhile Char.isDigit
    match ds, r.dropWhile Char.isDigit with
    | [], _ => none
    | _ :: _, ']' :: rest => some (digitsToNat ds, rest)
    | _ :: _, _ => none
  else none

/-- Fuelled scanner for `re.sub(r'\[sec:(\d+)\]', replace_sec_links, text)`:
non-overlapping leftmost matches, continuing after each replacement. -/
def replaceSecFuel (videoId : List Char) : Nat → List Char → List Char
  | 0, s => s
  | _ + 1, [] => []
  | fuel + 1, c :: cs =>
    match secMatchAt (c :: cs) with
    | some (n, rest) => replaceSecCallback videoId n ++ replaceSecFuel videoId fuel rest
    | none => c :: replaceSecFuel videoId fuel cs

/-- `re.sub(r'\[sec:(\d+)\]', replace_sec_links, markdown_text)` from
`generate_tutorial` (`youtube_service.py` line 173). -/
def replaceSecLinksAll (videoId text : List Char) : List Char :=
  replaceSecFuel videoId text.length text

def noTutorialS : List Char := "No tutorial generated.".data

/-- `generate_tutorial` (`youtube_service.py` lines 104-176), with the
Gemini call abstracted as its `response` value: `some text` models a truthy
response whose `.text` is `text`, `none` a falsy response.  If the response
is truthy but no 11-character video id can be extracted from `youtube_url`,
the function falls off the end of the `if response:` block and returns
Python `None` (modelled as `none`). -/
def generateTutorial (response : Option (List Char)) (youtubeUrl : List Char) :
    Option (List Char) :=
  match response with
  | some text =>
    match extractVideoId youtubeUrl with
    | some vid => some (replaceSecLinksAll vid text)
    | none => none
  | none => some noTutorialS

/-- `transcribe_youtube_video` (`youtube_service.py` lines 9-34): fetches
the transcript (modelled by `transcriptData`, unused beyond prompt
construction), munges it, and returns `generate_tutorial`'s result
unchanged.  `genResponse` abstracts the Gemini response for the built
prompt. -/
def transcribeYoutubeVideo (_transcriptData : List (List Char × Int))
    (genResponse : Option (List Char)) (youtubeUrl : List Char) :
    Option (List Char) :=
  generateTutorial genResponse youtubeUrl

/-- Python whitespace test used by `str.strip()`. -/
def isWs (c : Char) : Bool := c.isWhitespace

/-- Strip leading whitespace. -/
def stripLeft (l : List Char) : List Char := l.dropWhile isWs

/-- Strip trailing whitespace. -/
def stripRight (l : List Char) : List Char := (l.reverse.dropWhile isWs).reverse

/-- Python `str.strip()`. -/
def pyStrip (l : List Char) : List Char := stripRight (stripLeft l)

/-- Fuelled core of Python `str.replace(old, new)`: non-overlapping
left-to-right replacement of every occurrence. -/
def pyReplaceFuel (old new : List Char) : Nat → List Char → List Char
  | 0, s => s
  | _ + 1, [] => []
  | fuel + 1, c :: cs =>
    if old.isPrefixOf (c :: cs) ∧ ¬ old.isEmpty then
      new ++ pyReplaceFuel old new fuel (cs.drop (old.length - 1))
    else c :: pyReplaceFuel old new fuel cs

/-- Python `s.replace(old, new)` (with nonempty `old`, as in the code). -/
def pyReplace (old new s : List Char) : List Char :=
  pyReplaceFuel old new s.length s

/-- Python `s.split('\n')`. -/
def splitNlAux : List Char → List Char → List (List Char)
  | [], acc => [acc.reverse]
  | '\n' :: r, acc => acc.reverse :: splitNlAux r []
  | c :: r, acc => splitNlAux r (c :: acc)

def splitNl (s : List Char) : List (List Char) := splitNlAux s []

/-- A scraped video: the tuple `(href, title)` produced by
`scrape_youtube_links` (`search.py` line 598). -/
structure Video where
  url : List Char
  title : List Char
deriving DecidableEq

/-- The per-video article dict `{'title': ..., 'url': ..., 'content': ...}`
returned by `process_video` (`search.py` lines 683-687). -/
structure Tutorial where
  title : List Char
  url : List Char
  content : List Char
deriving DecidableEq

/-- One entry of the `sources` list built by `deep_research`
(`search.py` lines 950-959). -/
structure Source where
  number : Nat
  title : List Char
  url : List Char
deriving DecidableEq

/-- The `{title, content, sources}` payload returned by `deep_research`
(`search.py` lines 1025-1029). -/
structure Report where
  title : List Char
  content : List Char
  sources : List Source
deriving DecidableEq

def hashSpace : List Char := "# ".data
def hash2Space : List Char := "## ".data

/-- Title extraction in `deep_research` (`search.py` lines 968-972) and
`fast_search_youtube` (lines 1243-1247): the first line starting with
`'# '`, processed by `line.replace('# ', '').strip()`; the initial value
`''` if no such line exists. -/
def titleLoopDeep : List (List Char) → List Char
  | [] => []
  | l :: ls =>
    if hashSpace.isPrefixOf l then pyStrip (pyReplace hashSpace [] l)
    else titleLoopDeep ls

def extractTitleDeep (md : List Char) : List Char :=
  titleLoopDeep (splitNl md)

/-- The heading loop of `search_youtube_endpoint` (`search.py` lines
365-372): first line starting with `'# '` or `'## '`, processed by the
corresponding `replace(...).strip()`; `none` models Python `title = None`
surviving the loop. -/
def titleLoopSearch : List (List Char) → Option (List Char)
  | [] => none
  | l :: ls =>
    if hashSpace.isPrefixOf l then some (pyStrip (pyReplace hashSpace [] l))
    else if hash2Space.isPrefixOf l then some (pyStrip (pyReplace hash2Space [] l))
    else titleLoopSearch ls

def researchReportS : List Char :=
  ['R', 'e', 's', 'e', 'a', 'r', 'c', 'h', ' ', 'R', 'e', 'p', 'o', 'r', 't', ':', ' ']

def defaultTitle (query : List Char) : List Char :=
  researchReportS ++ query.take 50

/-- The fallback of `search_youtube_endpoint`'s title extraction
(`search.py` lines 374-379): `markdown_content.split('\n')[0].strip()`
truncated to 100 characters, or the query-derived default when that first
line strips to empty. -/
def firstLineFallback (md query : List Char) : List Char :=
  let fl := pyStrip ((splitNl md).headD [])
  if fl.isEmpty then defaultTitle query else fl.take 100

/-- Title extraction with fallbacks in `search_youtube_endpoint`
(`search.py` lines 364-382): heading loop, then — when the loop left
`title` falsy — `markdown_content.split('\n')[0].strip()` truncated to 100
characters, then the query-derived default, with a final re-check. -/
def extractTitleSearch (md query : List Char) : List Char :=
  let title1 :=
    match titleLoopSearch (splitNl md) with
    | some t => if t.isEmpty then firstLineFallback md query else t
    | none => firstLineFallback md query
  if title1.isEmpty ∨ (pyStrip title1).isEmpty then defaultTitle query else title1

/-- `video_id_to_source` (`search.py` lines 907-913): dict from extracted
video id to 1-based source number, built over `enumerate(all_tutorials, 1)`;
a later tutorial with the same id overwrites an earlier one. -/
def videoIdToSource (tuts : List Tutorial) : List (List Char × Nat) :=
  tuts.enum.filterMap
    (fun p => (extractVideoId p.2.url).map (fun vid => (vid, p.1 + 1)))

/-- Python `dict.get`: the last binding of the key wins. -/
def dictGet (m : List (List Char × Nat)) (k : List Char) : Option Nat :=
  ((m.reverse).find? (fun e => e.1 == k)).map (fun e => e.2)

def openParenHttps : List Char := [']', '('] ++ httpsS

/-- Existence check for the tail of the outer citation-link regex: the
portion between `https://youtu.be/` and the closing `)` must decompose as
`[^)]+` `?t=` `\d+`, i.e. a nonempty piece, the literal `?t=`, and one or
more digits reaching the `)`.  The flag tracks whether at least one
character precedes the candidate `?t=`. -/
def tailSplitOkAux (nonempty : Bool) : List Char → Bool
  | [] => false
  | c :: rest =>
    (nonempty && tEq.isPrefixOf (c :: rest) &&
      !((c :: rest).drop 3).isEmpty && ((c :: rest).drop 3).all Char.isDigit) ||
    tailSplitOkAux true rest

def tailSplitOk (body : List Char) : Bool := tailSplitOkAux false body

/-- Position matcher for the outer rewrite regex
`\[[^\]]+?\]\(https://youtu\.be/[^)]+\?t=\d+\)` (`search.py` line 947):
a nonempty bracketed label without `]`, then `](https://youtu.be/`, then a
`)`-free body that splits as `[^)]+\?t=\d+`, then `)`.  Returns the whole
match (re groupwise `group(0)`) and the rest of the input. -/
def timestampMatchAt : List Char → Option (List Char × List Char)
  | [] => none
  | c :: rest =>
    if c = '[' then
      let label := rest.takeWhile (fun x => x ≠ ']')
      if label.isEmpty then none
      else
        match rest.dropWhile (fun x => x ≠ ']') with
        | [] => none
        | _ :: r2 =>
          match r2 with
          | [] => none
          | e :: r3 =>
            if e = '(' ∧ httpsYtPre.isPrefixOf r3 then
              let r4 := r3.drop httpsYtPre.length
              let body := r4.takeWhile (fun x => x ≠ ')')
              match r4.dropWhile (fun x => x ≠ ')') with
              | [] => none
              | _ :: r6 =>
                if tailSplitOk body then
                  some ('[' :: (label ++ (']' :: '(' :: (httpsYtPre ++ body ++ [')']))), r6)
                else none
            else none
    else none

def openBracketParen : List Char := ['[', '(']

def closeParenSpace : List Char := [')', ' ']

/-- `add_source_number` (`search.py` lines 916-944): the `re.sub` callback.
Receives the whole matched link text, re-parses it with the inner
`re.search` calls, and either rewrites the label or returns the match
unchanged. -/
def addSourceNumber (m : List (List Char × Nat)) (url : List Char) : List Char :=
  if ¬ (pyContains ytDomainS url ∧ pyContains tEq url) then url
  else
    match scanFor youtuBeIdAt url with
    | none => url
    | some vid =>
      match dictGet m vid with
      | none => url
      | some n =>
        match scanFor bracketAt url with
        | none => url
        | some display =>
          match scanFor parenAt url with
          | none => url
          | some urlPart =>
            if ¬ display.isEmpty ∧ ¬ urlPart.isEmpty ∧
                pyContains ytDomainS urlPart ∧ pyContains tEq urlPart then
              openBracketParen ++ (Nat.repr n).data ++ closeParenSpace ++
                display ++ (']' :: '(' :: (urlPart ++ [')']))
            else url

/-- Fuelled scanner for
`re.sub(r'\[[^\]]+?\]\(https://youtu\.be/[^)]+\?t=\d+\)', add_source_number, text)`
(`search.py` line 947). -/
def subTSFuel (m : List (List Char × Nat)) : Nat → List Char → List Char
  | 0, s => s
  | _ + 1, [] => []
  | fuel + 1, c :: cs =>
    match timestampMatchAt (c :: cs) with
    | some (matched, rest) => addSourceNumber m matched ++ subTSFuel m fuel rest
    | none => c :: subTSFuel m fuel cs

def subTimestampLinks (m : List (List Char × Nat)) (text : List Char) : List Char :=
  subTSFuel m text.length text

def watchPre : List Char := "https://youtube.com/watch?v=".data

/-- The `sources` list built by `deep_research` (`search.py` lines
950-959): every tutorial, numbered from 1 in list order, with the URL
normalised to `https://youtube.com/watch?v=<id>` when an id is
extractable. -/
def buildSources (tuts : List Tutorial) : List Source :=
  tuts.enum.map (fun p =>
    { number := p.1 + 1
      title := p.2.title
      url :=
        match extractVideoId p.2.url with
        | some vid => watchPre ++ vid
        | none => p.2.url })

/-- The `{title, content, sources}` payload `deep_research` assembles from
`all_tutorials` and a truthy `response.text` (`search.py` lines 906-972,
1025-1029): content is the citation-rewritten `response.text.strip()`. -/
def buildReportDeep (tuts : List Tutorial) (responseText : List Char) : Report :=
  let md := subTimestampLinks (videoIdToSource tuts) (pyStrip responseText)
  { title := extractTitleDeep md, content := md, sources := buildSources tuts }

/-- Citation labels appearing in content: every occurrence of
`(<digits>)`, parsed at each position. -/
def citationAt : List Char → Option Nat
  | '(' :: r =>
    match r.takeWhile Char.isDigit, r.dropWhile Char.isDigit with
    | [], _ => none
    | ds, ')' :: _ => some (digitsToNat ds)
    | _, _ => none
  | _ => none

def citationNums : List Char → List Nat
  | [] => []
  | c :: cs =>
    match citationAt (c :: cs) with
    | some n => n :: citationNums cs
    | none => citationNums cs

/-- The maximum citation number appearing in a content string (0 when there
is none). -/
def maxCitation (s : List Char) : Nat :=
  (citationNums s).foldr Nat.max 0

def notesPre : List Char := "notes/".data

/-- The S3 key `f"notes/{video_id}"` (`search.py` line 667). -/
def notesKey (vid : List Char) : List Char := notesPre ++ vid

/-- Functional update of the artifact store, modelling
`s3_client.put_object(Bucket=..., Key=key, Body=body)`. -/
def storePut (store : List Char → Option (List Char)) (k v : List Char) :
    List Char → Option (List Char) :=
  fun k' => if k' = k then some v else store k'

/-- Instrumented result of one `process_video` call: the returned value,
the artifact store afterwards, and whether the transcript source and the
text generator were called. -/
structure ProcOut where
  result : Option Tutorial
  store : List Char → Option (List Char)
  transcriptCalled : Bool
  generatorCalled : Bool

/-- `process_video` (`search.py` lines 648-691).  `store` is the S3
bucket keyed by `notes/<video_id>`; `transcriptData` is the
`YouTubeTranscriptApi.get_transcript` result (`none` models a raised
exception, caught by the outer handler so the video is dropped);
`genResponse` abstracts the Gemini response inside `generate_tutorial`.
On a cache hit the stored article is returned with no transcript or
generator call. -/
def processVideo (store : List Char → Option (List Char))
    (transcriptData : Option (List (List Char × Int)))
    (genResponse : Option (List Char)) (video : Video) : ProcOut :=
  match extractVideoId video.url with
  | none => ⟨none, store, false, false⟩
  | some vid =>
    match store (notesKey vid) with
    | some tutorial => ⟨some ⟨video.title, video.url, tutorial⟩, store, false, false⟩
    | none =>
      match transcriptData with
      | none => ⟨none, store, true, false⟩
      | some td =>
        match transcribeYoutubeVideo td genResponse video.url with
        | some tutorial =>
          ⟨some ⟨video.title, video.url, tutorial⟩,
            storePut store (notesKey vid) tutorial, true, true⟩
        | none => ⟨none, store, true, true⟩

/-- One event observed by the fan-in loop over
`as_completed(future_to_video, timeout=90)` (`search.py` lines 828-840):
either a future completes (with `process_video`'s value, where `none`
covers both a `None` return and a per-future exception, both of which the
loop body skips), or the 90-second `as_completed` deadline expires while
futures are still pending. -/
inductive AggEvent where
  | completed (r : Option Tutorial)
  | deadline
deriving DecidableEq

def internalErrorS : List Char := "Internal server error".data

/-- Result of the fan-in loop: the collected `all_tutorials`, or the error
response produced when an exception escapes the loop.  The
`concurrent.futures.TimeoutError` raised by the `as_completed` iterator is
raised at the `for` statement, outside the per-item `try`, so it
propagates to `deep_research`'s top-level handler, which returns the
generic 500 `'Internal server error'` response — discarding every tutorial
collected so far. -/
inductive AggOutcome where
  | ok (tuts : List Tutorial)
  | error (msg : List Char)
deriving DecidableEq

def collectLoop (acc : List Tutorial) : List AggEvent → AggOutcome
  | [] => .ok acc
  | .completed none :: es => collectLoop acc es
  | .completed (some t) :: es => collectLoop (acc ++ [t]) es
  | .deadline :: _ => .error internalErrorS

/-- The fan-in loop of `deep_research` (`search.py` lines 828-840), run
over an event sequence. -/
def collectTutorials (events : List AggEvent) : AggOutcome :=
  collectLoop [] events

def failedReportS : List Char := "Failed to generate report".data

/-- HTTP-level outcome of the `deep_research` handler after
authentication: a 200 report, an explicit `jsonify` error response, or
`noResponse` — the view function falling off the end of its `try` block
and returning Python `None` (which Flask rejects with a framework-level
error, not a handler-produced response). -/
inductive Outcome where
  | ok (r : Report)
  | errorResp (msg : List Char)
  | noResponse
deriving DecidableEq

/-- The post-scrape pipeline of `deep_research` (`search.py` lines
808-1046) run over the per-video results in completion order.  `proc`
gives each video's `process_video` value; `synthText` abstracts the
Gemini report response (`none` for a falsy response or falsy
`response.text`).  The returned flag records whether the report
synthesizer (`model.generate_content`, line 900) was invoked.

When the scrape produced zero videos,
`ThreadPoolExecutor(max_workers=len(videos))` (line 821) raises
`ValueError("max_workers must be greater than 0")`, which the top-level
handler converts to the generic 500 `'Internal server error'` response. -/
def deepResearchRun (videos : List Video) (proc : Video → Option Tutorial)
    (synthText : Option (List Char)) : Outcome × Bool :=
  if videos.isEmpty then (.errorResp internalErrorS, false)
  else
    let tuts := videos.filterMap proc
    if tuts.isEmpty then (.noResponse, false)
    else
      match synthText with
      | none => (.noResponse, true)
      | some txt =>
        if txt.isEmpty then (.noResponse, true)
        else
          let md := subTimestampLinks (videoIdToSource tuts) (pyStrip txt)
          if md.isEmpty then (.errorResp failedReportS, true)
          else (.ok (buildReportDeep tuts txt), true)

/-- `max_concurrent = 25` (`search.py` line 813). -/
def maxConcurrent : Nat := 25

/-- Scheduler state for the parallel phase of `deep_research`
(`search.py` lines 812-825): every submitted video is pending, running
(its thread holds the `BoundedSemaphore(max_concurrent)` permit inside
`process_with_semaphore` and is executing `process_video`), or finished. -/
structure AggState where
  pending : List Nat
  running : List Nat
  finished : List Nat
deriving DecidableEq

/-- Interleaving semantics of `process_with_semaphore` (`search.py`
lines 816-818): a pending task may start only by acquiring the semaphore,
which blocks while `maxConcurrent` permits are taken; a running task
finishing releases its permit on exit from the `with` block regardless of
the outcome (the Boolean records success or exception and constrains
nothing). -/
inductive AggStep : AggState → AggState → Prop
  | acquire (s : AggState) (v : Nat) :
      v ∈ s.pending → s.running.length < maxConcurrent →
      AggStep s ⟨s.pending.erase v, v :: s.running, s.finished⟩
  | release (s : AggState) (v : Nat) (outcome : Bool) :
      v ∈ s.running →
      AggStep s ⟨s.pending, s.running.erase v, v :: s.finished⟩

/-- Initial scheduler state: all submitted videos pending, nothing
running. -/
def initState (sources : List Nat) : AggState := ⟨sources, [], []⟩

/-- States reachable by the scheduler from the initial state. -/
def ReachableAgg (sources : List Nat) (s : AggState) : Prop :=
  Relation.ReflTransGen AggStep (initState sources) s

/-- The per-heading-line processing shared by both branches of the
`search_youtube_endpoint` title loop. -/
def headingProcess (l : List Char) : List Char :=
  if hashSpace.isPrefixOf l then pyStrip (pyReplace hashSpace [] l)
  else pyStrip (pyReplace hash2Space [] l)

/-- Specification-shaped restatement of `search_youtube_endpoint`'s title
extraction, for comparison with the embedded `extractTitleSearch`: the
first `'# '`- or `'## '`-heading line processed, falling back (also when
the processed heading is empty) to the first line truncated to 100
characters, then to the query default. -/
def searchTitleSpec (md query : List Char) : List Char :=
  match (splitNl md).find? (fun l => hashSpace.isPrefixOf l || hash2Space.isPrefixOf l) with
  | some l =>
    if (headingProcess l).isEmpty then firstLineFallback md query else headingProcess l
  | none => firstLineFallback md query

/-- Specification-shaped restatement of the `deep_research` /
`fast_search_youtube` title extraction: the first `'# '`-heading line
processed, and the empty string when there is none. -/
def deepTitleSpec (md : List Char) : List Char :=
  match (splitNl md).find? (fun l => hashSpace.isPrefixOf l) with
  | some l => pyStrip (pyReplace hashSpace [] l)
  | none => []

/-! Concrete fixtures used by counterexamples and witnesses. -/

def abcIdS : List Char := "abcdefghijk".data

def tutFix : Tutorial :=
  { title := "T".data, url := "https://youtu.be/abcdefghijk".data, content := "c".data }

def helloS : List Char := "hello".data

def mdHeading2 : List Char := "## Heading\nbody".data

def headingS : List Char := "Heading".data

def cxMapC9 : List (List Char × Nat) := [(abcIdS, 1)]

def cxLinkC9 : List Char := "[a(b](https://youtu.be/abcdefghijk?t=5)".data

def cxLabelOnlyC9 : List Char := "[(1) a(b](https://youtu.be/abcdefghijk?t=5)".data

def cxCorruptedC9 : List Char := "[(1) a(b](b](https://youtu.be/abcdefghijk?t=5)".data

def urlNoId : List Char := "nope".data

def urlWithId : List Char := "https://youtu.be/abcdefghijk".data

def dqwIdS : List Char := "dQw4w9WgXcQ".data

def cachedS : List Char := "cached".data

def storeFix : List Char → Option (List Char) :=
  storePut (fun _ => none) (notesKey dqwIdS) cachedS

def videoFix : Video :=
  { url := "https://www.youtube.com/watch?v=dQw4w9WgXcQ".data, title := "t".data }

def sources30 : List Nat := List.range 30

def labelFix : List Char := ['3', 'm', '4', '5', 's']

def dsFix : List Char := ['2', '2', '5']

def plainFix : List Char := "[x](y)".data

def videoFixB : Video := { url := "https://youtu.be/aaaaaaaaaaa".data, title := "A".data }

def videoFixC : Video := { url := "https://youtu.be/bbbbbbbbbbb".data, title := "B".data }

/-- A per-video outcome with one deterministic failure:  `videoFixB`
fails, every other video succeeds. -/
def procFix : Video → Option Tutorial :=
  fun v => if v = videoFixB then none else some ⟨v.title, v.url, helloS⟩

/-! Theorems. -/

/-- C2 (code bug): with two units where the first completes before the
90-second deadline and the second is still in flight when the deadline
fires, the code does not keep the completed article: the
`concurrent.futures.TimeoutError` raised by the `as_completed` iterator is
raised at the `for` statement — outside the per-item `try/except
TimeoutError: continue` that was written to drop slow videos — so the
whole collection is aborted and the already-collected tutorials are
discarded, contrary to the claim that completed units are kept.  Without
the deadline event the same completed unit is kept. -/
theorem deadline_discards_completed_results :
    collectTutorials [AggEvent.completed (some tutFix), AggEvent.deadline] =
      AggOutcome.error internalErrorS ∧
    collectTutorials [AggEvent.completed (some tutFix)] = AggOutcome.ok [tutFix] := by
  decide

/-- C3 (code bug): when source discovery returns zero sources, the
synthesizer is indeed not invoked (flag `false`), but the pipeline does
not terminate with a clean "no report" outcome: `deep_research` evaluates
`ThreadPoolExecutor(max_workers=len(videos))` with `len(videos) = 0`,
which raises `ValueError`, and the top-level handler turns the request
into the generic 500 `'Internal server error'` response. -/
theorem empty_discovery_internal_error :
    deepResearchRun [] (fun _ => none) (some helloS) =
      (Outcome.errorResp internalErrorS, false) := rfl

/-- C7: the visible label produced for a `[sec:N]` placeholder is `Ns`
for N < 60, `MmSs` for 60 ≤ N < 3600, and `HhrMmSs` for N ≥ 3600 (with M
and S the minute and remaining-second counts computed by the code), and
the replacement link's target is `https://youtu.be/<videoId>?t=<N>`. -/
theorem timestamp_formatting :
    (∀ n : Nat, n < 60 → displayTime n = (Nat.repr n).data ++ sS) ∧
    (∀ n : Nat, 60 ≤ n → n < 3600 →
      displayTime n = (Nat.repr (n / 60)).data ++ mS ++ (Nat.repr (n % 60)).data ++ sS) ∧
    (∀ n : Nat, 3600 ≤ n →
      displayTime n = (Nat.repr (n / 3600)).data ++ hrS ++
        (Nat.repr ((n % 3600) / 60)).data ++ mS ++ (Nat.repr (n % 60)).data ++ sS) ∧
    (∀ videoId n, replaceSecCallback videoId n =
      '[' :: (displayTime n ++
        (']' :: '(' :: (httpsYtPre ++ videoId ++ tEq ++ (Nat.repr n).data ++ [')'])))) := by
  refine ⟨fun n h => ?_, fun n h1 h2 => ?_, fun n h => ?_, fun videoId n => ?_⟩
  · unfold displayTime
    rw [if_neg (by omega), if_neg (by omega)]
  · unfold displayTime
    rw [if_neg (by omega), if_pos h1]
  · unfold displayTime
    rw [if_pos h]
  · simp [replaceSecCallback, linkMid]

/-- Witness for `timestamp_formatting` at the three offsets named by the
claim: 45, 125 and 3725 seconds. -/
theorem timestamp_formatting_witness :
    displayTime 45 = ("45s").data ∧ displayTime 125 = ("2m5s").data ∧
      displayTime 3725 = ("1hr2m5s").data := by
  refine ⟨?_, ?_, ?_⟩
  · rw [timestamp_formatting.1 45 (by omega)]; decide
  · rw [timestamp_formatting.2.1 125 (by omega) (by omega)]; decide
  · rw [timestamp_formatting.2.2.1 3725 (by omega)]; decide

/-- C10: when the generator response is truthy but the supplied URL has no
extractable 11-character video id, `generate_tutorial` (and hence
`transcribe_youtube_video`) returns `None` — not the generated text and
not the fallback string; a falsy response yields the fallback string
`'No tutorial generated.'`; and with an extractable id the rewritten
generated text is returned. -/
theorem generate_tutorial_none_on_missing_id :
    (∀ t url, extractVideoId url = none → generateTutorial (some t) url = none) ∧
    (∀ td t url, extractVideoId url = none →
      transcribeYoutubeVideo td (some t) url = none) ∧
    (∀ url, generateTutorial none url = some noTutorialS) ∧
    (∀ t url vid, extractVideoId url = some vid →
      generateTutorial (some t) url = some (replaceSecLinksAll vid t)) := by
  refine ⟨fun t url h => ?_, fun td t url h => ?_, fun url => rfl, fun t url vid h => ?_⟩
  · simp [generateTutorial, h]
  · simp [transcribeYoutubeVideo, generateTutorial, h]
  · simp [generateTutorial, h]

/-- Witness for `generate_tutorial_none_on_missing_id` at a URL with no
extractable id and at a URL with one. -/
theorem generate_tutorial_none_on_missing_id_witness :
    generateTutorial (some helloS) urlNoId = none ∧
      transcribeYoutubeVideo [] (some helloS) urlNoId = none ∧
      generateTutorial (some helloS) urlWithId =
        some (replaceSecLinksAll abcIdS helloS) :=
  ⟨generate_tutorial_none_on_missing_id.1 helloS urlNoId (by decide),
   generate_tutorial_none_on_missing_id.2.1 [] helloS urlNoId (by decide),
   generate_tutorial_none_on_missing_id.2.2.2 helloS urlWithId abcIdS (by decide)⟩

/-- C6: in every scheduler state reachable from any submitted source list
(including lists longer than 25), at most `maxConcurrent = 25` videos are
being processed at once: a unit starts only by acquiring the counting
semaphore, which blocks at 25 permits, and finishing releases the permit
regardless of outcome. -/
theorem concurrency_bound (sources : List Nat) (s : AggState)
    (h : ReachableAgg sources s) : s.running.length ≤ maxConcurrent := by
  induction h with
  | refl => simp [initState]
  | tail _ step ih =>
    cases step with
    | acquire v hv hlt =>
      simp only [List.length_cons, maxConcurrent] at hlt ⊢
      omega
    | release v outcome hv =>
      exact le_trans (List.erase_sublist v _).length_le ih

/-- Witness for `concurrency_bound`: 30 sources are submitted (more than
the cap) and the state reached by starting work on source 0 satisfies the
bound. -/
theorem concurrency_bound_witness :
    maxConcurrent < sources30.length ∧
      (⟨sources30.erase 0, [0], []⟩ : AggState).running.length ≤ maxConcurrent :=
  ⟨by decide,
   concurrency_bound sources30 ⟨sources30.erase 0, [0], []⟩
     (Relation.ReflTransGen.single
       (AggStep.acquire (initState sources30) 0 (by decide) (by decide)))⟩

/-- C4: if the artifact store already holds an article under the video's
`notes/<id>` key, `process_video` returns the stored article and calls
neither the transcript source nor the text generator; and after any call
that produced a result, a second call on the resulting store is a pure
cache hit. -/
theorem cache_hit_no_generation :
    (∀ store td gen video vid t, extractVideoId video.url = some vid →
      store (notesKey vid) = some t →
      processVideo store td gen video =
        ⟨some ⟨video.title, video.url, t⟩, store, false, false⟩) ∧
    (∀ store td₁ gen₁ td₂ gen₂ video tut,
      (processVideo store td₁ gen₁ video).result = some tut →
      processVideo (processVideo store td₁ gen₁ video).store td₂ gen₂ video =
        ⟨some tut, (processVideo store td₁ gen₁ video).store, false, false⟩) := by
  constructor
  · intro store td gen video vid t h1 h2
    simp [processVideo, h1, h2]
  · intro store td₁ gen₁ td₂ gen₂ video tut h
    cases hv : extractVideoId video.url with
    | none => simp [processVideo, hv] at h
    | some vid =>
      cases hs : store (notesKey vid) with
      | some t0 =>
        have h' : tut = ⟨video.title, video.url, t0⟩ := by
          simp [processVideo, hv, hs] at h
          exact h.symm
        subst h'
        simp [processVideo, hv, hs]
      | none =>
        cases htd : td₁ with
        | none => simp [processVideo, hv, hs, htd] at h
        | some td =>
          cases hg : transcribeYoutubeVideo td gen₁ video.url with
          | none => simp [processVideo, hv, hs, htd, hg] at h
          | some tutorial =>
            have h' : tut = ⟨video.title, video.url, tutorial⟩ := by
              simp [processVideo, hv, hs, htd, hg] at h
              exact h.symm
            subst h'
            simp [processVideo, hv, hs, htd, hg, storePut]

/-- Witness for `cache_hit_no_generation`: a concrete populated store and
video; the call is a pure hit with no transcript or generator call. -/
theorem cache_hit_no_generation_witness :
    processVideo storeFix none none videoFix =
      ⟨some ⟨videoFix.title, videoFix.url, cachedS⟩, storeFix, false, false⟩ :=
  cache_hit_no_generation.1 storeFix none none videoFix dqwIdS cachedS
    (by decide) (by decide)

theorem collectLoop_completed_map (proc : Video → Option Tutorial) :
    ∀ (videos : List Video) (acc : List Tutorial),
      collectLoop acc (videos.map (fun v => AggEvent.completed (proc v))) =
        AggOutcome.ok (acc ++ videos.filterMap proc) := by
  intro videos
  induction videos with
  | nil => intro acc; simp [collectLoop]
  | cons v vs ih =>
    intro acc
    cases hv : proc v with
    | none => simp [collectLoop, hv, ih, List.filterMap_cons]
    | some t =>
      simp [collectLoop, hv, ih (acc ++ [t]), List.filterMap_cons, List.append_assoc]

theorem filter_isNone_length_le (proc : Video → Option Tutorial) (videos : List Video) :
    (videos.filter (fun v => (proc v).isNone)).length ≤ videos.length :=
  (List.filter_sublist _).length_le

theorem filterMap_length_eq_sub (proc : Video → Option Tutorial) (videos : List Video) :
    (videos.filterMap proc).length =
      videos.length - (videos.filter (fun v => (proc v).isNone)).length := by
  induction videos with
  | nil => rfl
  | cons v vs ih =>
    have hle := filter_isNone_length_le proc vs
    cases hv : proc v with
    | none => simp [List.filterMap_cons, List.filter_cons, hv, ih]
    | some t =>
      simp [List.filterMap_cons, List.filter_cons, hv, ih]
      omega

theorem timestampMatchAt_shape (s : List Char) (p : List Char × List Char)
    (h : timestampMatchAt s = some p) : ∃ tl, p.1 = '[' :: tl := by
  cases s with
  | nil => simp [timestampMatchAt] at h
  | cons c cs =>
    simp only [timestampMatchAt] at h
    repeat' split at h
    all_goals first
      | exact ⟨_, congrArg Prod.fst (Option.some.inj h).symm⟩
      | simp at h

theorem addSourceNumber_ne_nil (m : List (List Char × Nat)) (u : List Char)
    (hu : u ≠ []) : addSourceNumber m u ≠ [] := by
  unfold addSourceNumber
  repeat' split
  all_goals first
    | exact hu
    | simp [openBracketParen]

theorem subTSFuel_ne_nil (m : List (List Char × Nat)) :
    ∀ (fuel : Nat) (s : List Char), s ≠ [] → subTSFuel m fuel s ≠ [] := by
  intro fuel
  induction fuel with
  | zero => intro s hs; simpa [subTSFuel] using hs
  | succ f ih =>
    intro s hs
    cases s with
    | nil => exact absurd rfl hs
    | cons c cs =>
      cases hm : timestampMatchAt (c :: cs) with
      | none => simp [subTSFuel, hm]
      | some p =>
        obtain ⟨matched, rest⟩ := p
        obtain ⟨tl, htl⟩ := timestampMatchAt_shape _ _ hm
        simp only [subTSFuel, hm]
        have hmatched : matched ≠ [] := by
          rw [show matched = '[' :: tl from htl]
          simp
        exact List.append_ne_nil_of_left_ne_nil
          (addSourceNumber_ne_nil m matched hmatched) _

theorem subTimestampLinks_ne_nil (m : List (List Char × Nat)) (s : List Char)
    (hs : s ≠ []) : subTimestampLinks m s ≠ [] :=
  subTSFuel_ne_nil m s.length s hs

/-- C5: with per-source results given in completion order, the aggregation
keeps exactly the successes — a failing source is dropped locally and
never aborts the others — so with N sources of which M fail the
aggregation result has N−M entries; and provided at least one source
succeeds and the (oracle) synthesizer returns non-empty text, the
pipeline returns a Report whose source list has exactly N−M entries. -/
theorem partial_failure_tolerance (videos : List Video)
    (proc : Video → Option Tutorial) (txt : List Char)
    (h1 : videos.filterMap proc ≠ []) (h2 : pyStrip txt ≠ []) :
    collectTutorials (videos.map (fun v => AggEvent.completed (proc v))) =
      AggOutcome.ok (videos.filterMap proc) ∧
    (videos.filterMap proc).length =
      videos.length - (videos.filter (fun v => (proc v).isNone)).length ∧
    deepResearchRun videos proc (some txt) =
      (Outcome.ok (buildReportDeep (videos.filterMap proc) txt), true) ∧
    (buildReportDeep (videos.filterMap proc) txt).sources.length =
      (videos.filterMap proc).length := by
  have hv : ¬ videos.isEmpty = true := by
    cases videos with
    | nil => exact absurd rfl h1
    | cons v vs => simp
  have htxt : ¬ txt.isEmpty = true := by
    cases txt with
    | nil => exact absurd rfl h2
    | cons c cs => simp
  have hmd : ¬ (subTimestampLinks (videoIdToSource (videos.filterMap proc))
      (pyStrip txt)).isEmpty = true := by
    rw [List.isEmpty_iff]
    exact subTimestampLinks_ne_nil _ _ h2
  have h1' : ¬ (videos.filterMap proc).isEmpty = true := by
    simpa [List.isEmpty_iff] using h1
  refine ⟨?_, filterMap_length_eq_sub proc videos, ?_, ?_⟩
  · exact collectLoop_completed_map proc videos []
  · simp [deepResearchRun, hv, htxt, hmd, h1']
  · simp [buildReportDeep, buildSources]

/-- Witness for `partial_failure_tolerance`: two sources of which one
fails deterministically; the aggregation keeps exactly one entry and the
pipeline returns a report with one source. -/
theorem partial_failure_tolerance_witness :
    collectTutorials ([videoFixB, videoFixC].map (fun v => AggEvent.completed (procFix v))) =
      AggOutcome.ok ([videoFixB, videoFixC].filterMap procFix) ∧
    ([videoFixB, videoFixC].filterMap procFix).length =
      [videoFixB, videoFixC].length -
        ([videoFixB, videoFixC].filter (fun v => (procFix v).isNone)).length ∧
    deepResearchRun [videoFixB, videoFixC] procFix (some helloS) =
      (Outcome.ok (buildReportDeep ([videoFixB, videoFixC].filterMap procFix) helloS), true) ∧
    (buildReportDeep ([videoFixB, videoFixC].filterMap procFix) helloS).sources.length =
      ([videoFixB, videoFixC].filterMap procFix).length :=
  partial_failure_tolerance [videoFixB, videoFixC] procFix helloS
    (by decide) (by decide)

/-- C1 counterexample: with one discovered source and a synthesized text
containing no citation at all, the returned report has `len(sources) = 1`
but the maximum citation number appearing in the content is 0 — the
claimed equality `len(sources) = max citation number` fails, because the
code lists every aggregated source regardless of whether the generated
text ever cites it. -/
theorem citation_bijection_counterexample :
    (buildReportDeep [tutFix] helloS).sources.length ≠
      maxCitation (buildReportDeep [tutFix] helloS).content := by
  decide

/-- C1 amended: `sources[i].number = i + 1` holds for every index of every
report's source list, and every citation number assigned during rewriting
is consistent with that list: whenever the rewriter's id-to-number map
sends a video id to `n`, the source at position `n - 1` carries number `n`
and the watch URL of that same video id.  (The other half of the original
claim — that the maximum citation number appearing in the content equals
`len(sources)` — is refuted separately on a concrete report.) -/
theorem source_numbering_amended :
    (∀ (tuts : List Tutorial) (i : Nat) (h : i < (buildSources tuts).length),
      ((buildSources tuts).get ⟨i, h⟩).number = i + 1) ∧
    (∀ (tuts : List Tutorial) (vid : List Char) (n : Nat),
      dictGet (videoIdToSource tuts) vid = some n →
      ∃ h : n - 1 < (buildSources tuts).length,
        ((buildSources tuts).get ⟨n - 1, h⟩).number = n ∧
        ((buildSources tuts).get ⟨n - 1, h⟩).url = watchPre ++ vid) := by
  constructor
  · intro tuts i h
    simp [buildSources, List.get_eq_getElem, List.getElem_map, List.getElem_enum]
  · intro tuts vid n hget
    unfold dictGet at hget
    obtain ⟨e, hfind, he2⟩ : ∃ e,
        (videoIdToSource tuts).reverse.find? (fun e => e.1 == vid) = some e ∧
          e.2 = n := by
      cases hf : (videoIdToSource tuts).reverse.find? (fun e => e.1 == vid) with
      | none => rw [hf] at hget; simp at hget
      | some e =>
        rw [hf] at hget
        simp at hget
        exact ⟨e, rfl, hget⟩
    have hpb := @List.find?_some _ (fun e => e.1 == vid) e _ hfind
    have hp : e.1 = vid := by simpa using hpb
    have hmem : e ∈ videoIdToSource tuts := by
      have := List.mem_of_find?_eq_some hfind
      simpa using this
    unfold videoIdToSource at hmem
    obtain ⟨p, hpmem, hpe⟩ := List.mem_filterMap.mp hmem
    obtain ⟨v0, hv0, hve⟩ := Option.map_eq_some'.mp hpe
    have hi : p.1 < tuts.length := List.fst_lt_of_mem_enum hpmem
    have hgetp : tuts[p.1]? = some p.2 := List.mem_enum_iff_getElem?.mp hpmem
    have hgetp' : tuts[p.1] = p.2 := by
      rw [List.getElem?_eq_getElem hi] at hgetp
      exact Option.some.inj hgetp
    have hn : n = p.1 + 1 := by rw [← he2, ← hve]
    have hvid : extractVideoId p.2.url = some vid := by
      rw [hv0]
      have : v0 = vid := by rw [← hp, ← hve]
      rw [this]
    subst hn
    have hlen : p.1 + 1 - 1 < (buildSources tuts).length := by
      simpa [buildSources] using hi
    refine ⟨hlen, ?_, ?_⟩
    · simp [buildSources, List.get_eq_getElem, List.getElem_map, List.getElem_enum]
    · simp only [buildSources, List.get_eq_getElem, List.getElem_map,
        List.getElem_enum, Nat.add_sub_cancel]
      rw [hgetp', hvid]

/-- Witness for `source_numbering_amended` on a one-source report: the
single source has number 1, and the id-to-number binding for its video id
points back at it. -/
theorem source_numbering_amended_witness :
    ((buildSources [tutFix]).get ⟨0, by decide⟩).number = 0 + 1 ∧
      (∃ h : 1 - 1 < (buildSources [tutFix]).length,
        ((buildSources [tutFix]).get ⟨1 - 1, h⟩).number = 1 ∧
        ((buildSources [tutFix]).get ⟨1 - 1, h⟩).url = watchPre ++ abcIdS) :=
  ⟨source_numbering_amended.1 [tutFix] 0 (by decide),
   source_numbering_amended.2 [tutFix] abcIdS 1 (by decide)⟩

/-- C8 counterexample: a synthesized markdown whose only heading is the
second-level `## Heading` yields a report whose title is the empty string,
not `Heading`: the `deep_research` title loop only recognises lines
starting with `'# '` and falls back to `''`, not to the heading/first-line
/query chain the claim describes. -/
theorem title_extraction_counterexample :
    (buildReportDeep [tutFix] mdHeading2).title = [] ∧
      (buildReportDeep [tutFix] mdHeading2).title ≠ headingS := by
  decide

theorem dropWhile_head_false (p : Char → Bool) :
    ∀ (l : List Char) (c : Char) (r : List Char),
      l.dropWhile p = c :: r → p c = false := by
  intro l
  induction l with
  | nil => intro c r h; simp at h
  | cons a as ih =>
    intro c r h
    by_cases hp : p a = true
    · rw [List.dropWhile_cons_of_pos hp] at h
      exact ih c r h
    · rw [List.dropWhile_cons_of_neg hp] at h
      obtain ⟨rfl, -⟩ := List.cons.inj h
      simpa using hp

theorem dropWhile_idem (p : Char → Bool) (l : List Char) :
    (l.dropWhile p).dropWhile p = l.dropWhile p := by
  cases h : l.dropWhile p with
  | nil => rfl
  | cons c r =>
    have hc := dropWhile_head_false p l c r h
    rw [List.dropWhile_cons_of_neg (by simp [hc])]

theorem stripRight_pre (l : List Char) : stripRight l <+: l := by
  rw [← List.reverse_suffix, stripRight, List.reverse_reverse]
  exact ⟨l.reverse.takeWhile isWs, List.takeWhile_append_dropWhile isWs l.reverse⟩

theorem stripRight_eq_nil_iff (l : List Char) :
    stripRight l = [] ↔ ∀ c ∈ l, isWs c = true := by
  unfold stripRight
  rw [List.reverse_eq_nil_iff, List.dropWhile_eq_nil_iff]
  constructor
  · intro h c hc; exact h c (List.mem_reverse.mpr hc)
  · intro h c hc; exact h c (List.mem_reverse.mp hc)

theorem pyStrip_head_not_ws (l : List Char) (c : Char) (r : List Char)
    (h : pyStrip l = c :: r) : isWs c = false := by
  unfold pyStrip at h
  obtain ⟨t, ht⟩ := stripRight_pre (stripLeft l)
  rw [h] at ht
  exact dropWhile_head_false isWs l c (r ++ t) ht.symm

theorem pyStrip_cons_ne_nil (c : Char) (r : List Char) (h : isWs c = false) :
    pyStrip (c :: r) ≠ [] := by
  unfold pyStrip stripLeft
  rw [List.dropWhile_cons_of_neg (by simp [h])]
  intro hc
  have := (stripRight_eq_nil_iff _).mp hc c (by simp)
  simp [h] at this

theorem stripLeft_of_head_not_ws (c : Char) (r : List Char) (h : isWs c = false) :
    stripLeft (c :: r) = c :: r := by
  rw [stripLeft, List.dropWhile_cons_of_neg (by simp [h])]

theorem stripRight_idem (l : List Char) : stripRight (stripRight l) = stripRight l := by
  unfold stripRight
  rw [List.reverse_reverse, dropWhile_idem]

theorem pyStrip_idem (l : List Char) : pyStrip (pyStrip l) = pyStrip l := by
  cases h : pyStrip l with
  | nil => rfl
  | cons c r =>
    have hws := pyStrip_head_not_ws l c r h
    unfold pyStrip
    rw [stripLeft_of_head_not_ws c r hws, ← h]
    exact stripRight_idem _

theorem strip_take100_ne_nil (l : List Char) (c : Char) (r : List Char)
    (h : pyStrip l = c :: r) : pyStrip ((c :: r).take 100) ≠ [] := by
  have hws := pyStrip_head_not_ws l c r h
  rw [show (100 : Nat) = 99 + 1 from rfl, List.take_succ_cons]
  exact pyStrip_cons_ne_nil c _ hws

theorem defaultTitle_ne_nil (query : List Char) : defaultTitle query ≠ [] := by
  unfold defaultTitle researchReportS
  simp

theorem defaultTitle_strip_ne_nil (query : List Char) :
    pyStrip (defaultTitle query) ≠ [] := by
  unfold defaultTitle researchReportS
  exact pyStrip_cons_ne_nil 'R' _ (by decide)

theorem headingProcess_strip_fix (l : List Char) :
    pyStrip (headingProcess l) = headingProcess l := by
  unfold headingProcess
  split
  · exact pyStrip_idem _
  · exact pyStrip_idem _

theorem final_guard_eq (query t : List Char) (h1 : t ≠ []) (h2 : pyStrip t ≠ []) :
    (if t.isEmpty ∨ (pyStrip t).isEmpty then defaultTitle query else t) = t := by
  rw [if_neg]
  intro hor
  cases hor with
  | inl h => exact h1 (List.isEmpty_iff.mp h)
  | inr h => exact h2 (List.isEmpty_iff.mp h)

theorem search_guard_flf (md query : List Char) :
    (if (firstLineFallback md query).isEmpty ∨
        (pyStrip (firstLineFallback md query)).isEmpty
      then defaultTitle query else firstLineFallback md query) =
      firstLineFallback md query := by
  cases hfl : pyStrip ((splitNl md).headD []) with
  | nil =>
    have hd : firstLineFallback md query = defaultTitle query := by
      unfold firstLineFallback
      rw [hfl]
      rfl
    rw [hd]
    exact final_guard_eq query _ (defaultTitle_ne_nil query) (defaultTitle_strip_ne_nil query)
  | cons c r =>
    have hd : firstLineFallback md query = (c :: r).take 100 := by
      unfold firstLineFallback
      rw [hfl]
      rfl
    rw [hd]
    refine final_guard_eq query _ (by simp) ?_
    exact strip_take100_ne_nil _ c r hfl

theorem titleLoopDeep_eq_find (lines : List (List Char)) :
    titleLoopDeep lines =
      (match lines.find? (fun l => hashSpace.isPrefixOf l) with
        | some l => pyStrip (pyReplace hashSpace [] l)
        | none => []) := by
  induction lines with
  | nil => rfl
  | cons l ls ih =>
    by_cases hp : hashSpace.isPrefixOf l = true
    · simp only [titleLoopDeep]
      rw [if_pos hp, List.find?_cons_of_pos _ hp]
    · simp only [titleLoopDeep]
      rw [if_neg hp, List.find?_cons_of_neg _ hp, ih]

theorem titleLoopSearch_eq_find (lines : List (List Char)) :
    titleLoopSearch lines =
      (lines.find? (fun l => hashSpace.isPrefixOf l || hash2Space.isPrefixOf l)).map
        headingProcess := by
  induction lines with
  | nil => rfl
  | cons l ls ih =>
    by_cases h1 : hashSpace.isPrefixOf l = true
    · simp only [titleLoopSearch]
      rw [if_pos h1, List.find?_cons_of_pos _ (by simp [h1])]
      simp [headingProcess, h1]
    · by_cases h2 : hash2Space.isPrefixOf l = true
      · simp only [titleLoopSearch]
        rw [if_neg h1, if_pos h2, List.find?_cons_of_pos _ (by simp [h2])]
        simp [headingProcess, h1]
      · simp only [titleLoopSearch]
        rw [if_neg h1, if_neg h2, List.find?_cons_of_neg _ (by simp [h1, h2]), ih]

/-- C8 amended: the title of the `deep_research` / `fast_search_youtube`
report is the processed first `'# '`-heading line, or the empty string if
none exists (no second-level headings, no further fallback); the fuller
fallback chain exists only in `search_youtube_endpoint`'s save path,
where it is: first `'# '`- or `'## '`-heading line processed; if none (or
it processes to empty), the first line of the markdown — not the first
non-empty line — stripped and truncated to 100 characters; and if that is
empty, the query-derived default `Research Report: <query[:50]>`. -/
theorem title_extraction_amended :
    (∀ md, extractTitleDeep md = deepTitleSpec md) ∧
    (∀ md query, extractTitleSearch md query = searchTitleSpec md query) := by
  constructor
  · intro md
    exact titleLoopDeep_eq_find (splitNl md)
  · intro md query
    unfold extractTitleSearch searchTitleSpec
    rw [titleLoopSearch_eq_find]
    cases hfind : (splitNl md).find?
        (fun l => hashSpace.isPrefixOf l || hash2Space.isPrefixOf l) with
    | none =>
      simp only [Option.map_none']
      exact search_guard_flf md query
    | some l =>
      simp only [Option.map_some']
      by_cases hempty : (headingProcess l).isEmpty = true
      · rw [if_pos hempty]
        exact search_guard_flf md query
      · rw [if_neg hempty]
        have hne : headingProcess l ≠ [] := fun hc => hempty (by simp [hc])
        have hs : pyStrip (headingProcess l) ≠ [] := by
          rw [headingProcess_strip_fix]
          exact hne
        exact final_guard_eq query (headingProcess l) hne hs

/-- Witness for `title_extraction_amended` at a markdown with a top-level
heading, one with only a second-level heading, and one with no heading at
all. -/
theorem title_extraction_amended_witness :
    extractTitleDeep mdHeading2 = deepTitleSpec mdHeading2 ∧
      extractTitleSearch mdHeading2 helloS = searchTitleSpec mdHeading2 helloS ∧
      extractTitleSearch helloS helloS = searchTitleSpec helloS helloS :=
  ⟨title_extraction_amended.1 mdHeading2,
   title_extraction_amended.2 mdHeading2 helloS,
   title_extraction_amended.2 helloS helloS⟩

theorem isPrefixOf_eq {l₁ l₂ : List Char} (h : l₁.isPrefixOf l₂ = true) :
    ∃ t, l₁ ++ t = l₂ :=
  List.isPrefixOf_iff_prefix.mp h

theorem isPrefixOf_append_self (l t : List Char) : l.isPrefixOf (l ++ t) = true := by
  induction l with
  | nil => simp
  | cons c cs ih => simp [List.isPrefixOf, ih]

theorem pyContains_of_append (sub a b : List Char) :
    pyContains sub (a ++ (sub ++ b)) = true := by
  induction a with
  | nil =>
    cases sub with
    | nil =>
      cases b with
      | nil => rfl
      | cons x xs => simp [pyContains]
    | cons s ss => simp [pyContains, isPrefixOf_append_self]
  | cons c cs ih => simp [pyContains, ih]

theorem scanFor_head_some {α : Type} (p : List Char → Option α) (c : Char)
    (r : List Char) (a : α) (h : p (c :: r) = some a) :
    scanFor p (c :: r) = some a := by
  simp [scanFor, h]

theorem scanFor_append_of_none {α : Type} (p : List Char → Option α) :
    ∀ (l m : List Char), (∀ l', l' <:+ l → l' ≠ [] → p (l' ++ m) = none) →
      scanFor p (l ++ m) = scanFor p m := by
  intro l
  induction l with
  | nil => intro m _; rfl
  | cons c cs ih =>
    intro m h
    have h0 : p (c :: (cs ++ m)) = none := h (c :: cs) (List.suffix_refl _) (by simp)
    rw [List.cons_append]
    simp only [scanFor, h0]
    exact ih m (fun l' hs hn => h l' (hs.trans (List.suffix_cons c cs)) hn)

theorem suffix_append_cases {l' a b : List Char} (h : l' <:+ a ++ b) :
    l' <:+ b ∨ ∃ a', a' <:+ a ∧ a' ≠ [] ∧ l' = a' ++ b := by
  obtain ⟨t, ht⟩ := h
  have hlens : t.length + l'.length = a.length + b.length := by
    have := congrArg List.length ht
    simpa using this
  have h1 : l' = (a ++ b).drop t.length := by
    rw [← ht, List.drop_left]
  by_cases hlen : l'.length ≤ b.length
  · left
    have hta : a.length ≤ t.length := by omega
    rw [h1, List.drop_append_eq_append_drop, List.drop_eq_nil_of_le hta,
      List.nil_append]
    exact List.drop_suffix _ _
  · right
    have hta : t.length < a.length := by omega
    refine ⟨a.drop t.length, List.drop_suffix _ _, ?_, ?_⟩
    · intro hc
      have := congrArg List.length hc
      simp at this
      omega
    · rw [h1, List.drop_append_eq_append_drop, Nat.sub_eq_zero_of_le (le_of_lt hta),
        List.drop_zero]

theorem youtuBeIdAt_head_ne (c : Char) (r : List Char) (hc : ¬ c = 'y') :
    youtuBeIdAt (c :: r) = none := by
  unfold youtuBeIdAt
  rw [if_neg]
  intro hpre
  obtain ⟨t, ht⟩ := isPrefixOf_eq hpre
  have : ('y' : Char) = c := by
    have hh := congrArg List.head? ht
    simpa [ytPre, ytDomainS] using hh
  exact hc this.symm

theorem ytPre_no_bracket_split (a' w : List Char) (hlen : a'.length < ytPre.length)
    (hpre : ytPre.isPrefixOf (a' ++ (']' :: w)) = true) : False := by
  obtain ⟨t, ht⟩ := isPrefixOf_eq hpre
  have h1 : (ytPre ++ t)[a'.length]? = some ']' := by
    rw [ht, List.getElem?_append_right (le_refl _)]
    simp
  rw [List.getElem?_append_left hlen] at h1
  have : (']' : Char) ∈ ytPre := List.getElem?_mem h1
  exact absurd this (by decide)

theorem takeToClose_append (close : Char) (l r : List Char)
    (hnc : close ∉ l) (hnl : '\n' ∉ l) :
    takeToClose close (l ++ (close :: r)) = some l := by
  induction l with
  | nil => simp [takeToClose]
  | cons c cs ih =>
    have hc1 : ¬ c = close := fun hc => hnc (hc ▸ List.mem_cons_self c cs)
    have hc2 : ¬ c = '\n' := fun hc => hnl (hc ▸ List.mem_cons_self c cs)
    rw [List.cons_append]
    simp only [takeToClose]
    rw [if_neg hc1, if_neg hc2,
      ih (fun hm => hnc (List.mem_cons_of_mem c hm))
        (fun hm => hnl (List.mem_cons_of_mem c hm))]
    rfl

theorem parenAt_head_ne (c : Char) (r : List Char) (hc : ¬ c = '(') :
    parenAt (c :: r) = none := by
  simp [parenAt, hc]

theorem head_mem_of_suffix {l' s : List Char} (h : l' <:+ s) (c : Char)
    (r : List Char) (hl : l' = c :: r) : c ∈ s := by
  obtain ⟨t, ht⟩ := h
  subst hl
  rw [← ht]
  simp

theorem isVidChar_ne_paren (c : Char) (h : isVidChar c = true) : ¬ c = ')' :=
  fun hc => by rw [hc] at h; exact absurd h (by decide)

theorem isVidChar_ne_nl (c : Char) (h : isVidChar c = true) : ¬ c = '\n' :=
  fun hc => by rw [hc] at h; exact absurd h (by decide)

theorem isDigit_ne_paren (c : Char) (h : c.isDigit = true) : ¬ c = ')' :=
  fun hc => by rw [hc] at h; exact absurd h (by decide)

theorem isDigit_ne_nl (c : Char) (h : c.isDigit = true) : ¬ c = '\n' :=
  fun hc => by rw [hc] at h; exact absurd h (by decide)

theorem scanFor_of_head {α : Type} (p : List Char → Option α) (s : List Char) (a : α)
    (h : p s = some a) (hs : s ≠ []) : scanFor p s = some a := by
  cases s with
  | nil => exact absurd rfl hs
  | cons c r => simp [scanFor, h]

theorem youtuBeIdAt_at_start (vid w : List Char) (h11 : vid.length = 11)
    (hall : vid.all isVidChar = true) :
    youtuBeIdAt (ytPre ++ (vid ++ w)) = some vid := by
  unfold youtuBeIdAt
  rw [if_pos (isPrefixOf_append_self _ _), List.drop_left]
  unfold check11
  rw [if_pos]
  · rw [← h11, List.take_left]
  · refine ⟨?_, ?_⟩
    · rw [List.length_append, h11]
      omega
    · rw [← h11, List.take_left]
      exact hall

theorem youtuBe_skip (label w : List Char) (hno : ¬ ytDomainS <:+: label) :
    ∀ l', l' <:+ ('[' :: label) ++ openParenHttps → l' ≠ [] →
      youtuBeIdAt (l' ++ (ytPre ++ w)) = none := by
  intro l' hsuf hne
  rcases suffix_append_cases hsuf with hb | ⟨a', ha's, ha'ne, rfl⟩
  · obtain ⟨c, r, rfl⟩ : ∃ c r, l' = c :: r := by
      cases l' with
      | nil => exact absurd rfl hne
      | cons c r => exact ⟨c, r, rfl⟩
    have hcmem : c ∈ openParenHttps := head_mem_of_suffix hb c r rfl
    have hcne : ¬ c = 'y' := fun hc => absurd (hc ▸ hcmem) (by decide)
    exact youtuBeIdAt_head_ne c _ hcne
  · rw [List.append_assoc]
    by_cases hpre : ytPre.isPrefixOf (a' ++ (openParenHttps ++ (ytPre ++ w))) = true
    · exfalso
      by_cases hlen : a'.length < ytPre.length
      · exact ytPre_no_bracket_split a' _ hlen hpre
      · push_neg at hlen
        obtain ⟨t, ht⟩ := isPrefixOf_eq hpre
        have h9 : a'.take ytPre.length = ytPre := by
          have hcong := congrArg (List.take ytPre.length) ht
          rw [List.take_left, List.take_append_eq_append_take,
            Nat.sub_eq_zero_of_le hlen, List.take_zero, List.append_nil] at hcong
          exact hcong.symm
        have hsplit : a' = ytPre ++ a'.drop ytPre.length := by
          conv_lhs => rw [← List.take_append_drop ytPre.length a']
          rw [h9]
        obtain ⟨p2, hp2⟩ := ha's
        cases p2 with
        | nil =>
          simp only [List.nil_append] at hp2
          rw [hp2] at hsplit
          have hh := congrArg List.head? hsplit
          simp [ytPre, ytDomainS] at hh
        | cons x p2' =>
          have hx := List.cons.inj hp2
          apply hno
          refine ⟨p2', '/' :: a'.drop ytPre.length, ?_⟩
          rw [← hx.2, hsplit]
          simp [ytPre, List.append_assoc]
    · unfold youtuBeIdAt
      rw [if_neg hpre]

theorem paren_skip (label rest : List Char) (hlp : '(' ∉ label) :
    ∀ l', l' <:+ ('[' :: label) ++ [']'] → l' ≠ [] →
      parenAt (l' ++ rest) = none := by
  intro l' hsuf hne
  obtain ⟨c, r, rfl⟩ : ∃ c r, l' = c :: r := by
    cases l' with
    | nil => exact absurd rfl hne
    | cons c r => exact ⟨c, r, rfl⟩
  have hcmem : c ∈ ('[' :: label) ++ [']'] := head_mem_of_suffix hsuf c r rfl
  have hcne : ¬ c = '(' := by
    intro hc
    subst hc
    rcases List.mem_append.mp hcmem with h | h
    · rcases List.mem_cons.mp h with h' | h'
      · exact absurd h' (by decide)
      · exact hlp h'
    · simp at h
  exact parenAt_head_ne c _ hcne

theorem target_no_close (vid ds : List Char) (hv : vid.all isVidChar = true)
    (hd : ds.all Char.isDigit = true) :
    ')' ∉ httpsYtPre ++ vid ++ tEq ++ ds ∧ '\n' ∉ httpsYtPre ++ vid ++ tEq ++ ds := by
  constructor
  · intro hm
    rcases List.mem_append.mp hm with h | h
    · rcases List.mem_append.mp h with h2 | h2
      · rcases List.mem_append.mp h2 with h3 | h3
        · exact absurd h3 (by decide)
        · exact absurd (List.all_eq_true.mp hv _ h3) (by decide)
      · exact absurd h2 (by decide)
    · exact absurd (List.all_eq_true.mp hd _ h) (by decide)
  · intro hm
    rcases List.mem_append.mp hm with h | h
    · rcases List.mem_append.mp h with h2 | h2
      · rcases List.mem_append.mp h2 with h3 | h3
        · exact absurd h3 (by decide)
        · exact absurd (List.all_eq_true.mp hv _ h3) (by decide)
      · exact absurd h2 (by decide)
    · exact absurd (List.all_eq_true.mp hd _ h) (by decide)

/-- C9 counterexample: the link `[a(b](https://youtu.be/abcdefghijk?t=5)`
matches the rewrite regex for a known source, yet `add_source_number`
neither passes it through nor merely prefixes its label: the inner
`re.search(r'\((.*?)\)')` starts at the `(` inside the label, so the
rewritten output duplicates part of the label into the link target,
producing `[(1) a(b](b](https://youtu.be/abcdefghijk?t=5)`. -/
theorem citation_rewrite_counterexample :
    timestampMatchAt cxLinkC9 = some (cxLinkC9, []) ∧
      addSourceNumber cxMapC9 cxLinkC9 = cxCorruptedC9 ∧
      addSourceNumber cxMapC9 cxLinkC9 ≠ cxLinkC9 ∧
      addSourceNumber cxMapC9 cxLinkC9 ≠ cxLabelOnlyC9 := by
  decide

/-- C9 amended: for a link of the recognized timestamp shape whose video
id is a known source and whose label contains no `(`, `]`, newline, or
embedded `youtu.be` text (labels produced by the pipeline are time
displays and satisfy all of this), `add_source_number` rewrites only the
visible label, prefixing the source number in parentheses, and leaves the
link target byte-for-byte unchanged.  A match whose video id cannot be
found, or whose id is not a known source, is returned unchanged — a
malformed link is never an error.  (A matching label that does contain
`(` is not safe, as shown separately on a concrete link.) -/
theorem citation_rewrite_amended :
    (∀ (m : List (List Char × Nat)) (label vid ds : List Char) (n : Nat),
      label ≠ [] → ']' ∉ label → '(' ∉ label → '\n' ∉ label →
      ¬ ytDomainS <:+: label →
      vid.length = 11 → vid.all isVidChar = true →
      ds ≠ [] → ds.all Char.isDigit = true →
      dictGet m vid = some n →
      addSourceNumber m
          ('[' :: (label ++ (']' :: '(' :: (httpsYtPre ++ vid ++ tEq ++ ds ++ [')'])))) =
        openBracketParen ++ (Nat.repr n).data ++ closeParenSpace ++ label ++
          (']' :: '(' :: (httpsYtPre ++ vid ++ tEq ++ ds ++ [')']))) ∧
    (∀ (m : List (List Char × Nat)) (url : List Char),
      scanFor youtuBeIdAt url = none → addSourceNumber m url = url) ∧
    (∀ (m : List (List Char × Nat)) (url vid : List Char),
      scanFor youtuBeIdAt url = some vid → dictGet m vid = none →
      addSourceNumber m url = url) := by
  refine ⟨?_, ?_, ?_⟩
  · intro m label vid ds n hlne hlb hlp hlnl hno h11 hvall hdsne hdsall hget
    have hM1 : '[' :: (label ++ (']' :: '(' :: (httpsYtPre ++ vid ++ tEq ++ ds ++ [')']))) =
        (('[' :: label) ++ openParenHttps) ++
          (ytPre ++ (vid ++ (tEq ++ (ds ++ [')'])))) := by
      simp [openParenHttps, httpsYtPre, List.append_assoc]
    have hscan : scanFor youtuBeIdAt
        ('[' :: (label ++ (']' :: '(' :: (httpsYtPre ++ vid ++ tEq ++ ds ++ [')'])))) =
        some vid := by
      rw [hM1, scanFor_append_of_none _ _ _ (youtuBe_skip label _ hno)]
      exact scanFor_of_head _ _ _ (youtuBeIdAt_at_start vid _ h11 hvall)
        (by simp [ytPre, ytDomainS])
    have hbr : scanFor bracketAt
        ('[' :: (label ++ (']' :: '(' :: (httpsYtPre ++ vid ++ tEq ++ ds ++ [')'])))) =
        some label := by
      apply scanFor_of_head
      · simp only [bracketAt, if_true]
        rw [takeToClose_append ']' label _ hlb hlnl]
      · simp
    obtain ⟨hnc, hnl2⟩ := target_no_close vid ds hvall hdsall
    have hA : httpsYtPre ++ vid ++ tEq ++ ds ++ [')'] =
        (httpsYtPre ++ vid ++ tEq ++ ds) ++ (')' :: []) := by simp
    have hpr : scanFor parenAt
        ('[' :: (label ++ (']' :: '(' :: (httpsYtPre ++ vid ++ tEq ++ ds ++ [')'])))) =
        some (httpsYtPre ++ vid ++ tEq ++ ds) := by
      have hM2 : '[' :: (label ++ (']' :: '(' :: (httpsYtPre ++ vid ++ tEq ++ ds ++ [')']))) =
          (('[' :: label) ++ [']']) ++
            ('(' :: (httpsYtPre ++ vid ++ tEq ++ ds ++ [')'])) := by
        simp [List.append_assoc]
      rw [hM2, scanFor_append_of_none _ _ _ (paren_skip label _ hlp)]
      apply scanFor_of_head
      · simp only [parenAt, if_true]
        rw [hA, takeToClose_append ')' _ _ hnc hnl2]
      · simp
    have hc1 : pyContains ytDomainS
        ('[' :: (label ++ (']' :: '(' :: (httpsYtPre ++ vid ++ tEq ++ ds ++ [')'])))) =
        true := by
      have heq : '[' :: (label ++ (']' :: '(' :: (httpsYtPre ++ vid ++ tEq ++ ds ++ [')']))) =
          ('[' :: (label ++ (']' :: '(' :: httpsS))) ++
            (ytDomainS ++ ('/' :: (vid ++ (tEq ++ (ds ++ [')']))))) := by
        simp [httpsYtPre, ytPre, List.append_assoc]
      rw [heq]
      exact pyContains_of_append _ _ _
    have hc2 : pyContains tEq
        ('[' :: (label ++ (']' :: '(' :: (httpsYtPre ++ vid ++ tEq ++ ds ++ [')'])))) =
        true := by
      have heq : '[' :: (label ++ (']' :: '(' :: (httpsYtPre ++ vid ++ tEq ++ ds ++ [')']))) =
          ('[' :: (label ++ (']' :: '(' :: (httpsYtPre ++ vid)))) ++
            (tEq ++ (ds ++ [')'])) := by
        simp [List.append_assoc]
      rw [heq]
      exact pyContains_of_append _ _ _
    have hc3 : pyContains ytDomainS (httpsYtPre ++ vid ++ tEq ++ ds) = true := by
      have heq : httpsYtPre ++ vid ++ tEq ++ ds =
          httpsS ++ (ytDomainS ++ ('/' :: (vid ++ (tEq ++ ds)))) := by
        simp [httpsYtPre, ytPre, List.append_assoc]
      rw [heq]
      exact pyContains_of_append _ _ _
    have hc4 : pyContains tEq (httpsYtPre ++ vid ++ tEq ++ ds) = true := by
      have heq : httpsYtPre ++ vid ++ tEq ++ ds =
          (httpsYtPre ++ vid) ++ (tEq ++ ds) := by
        simp [List.append_assoc]
      rw [heq]
      exact pyContains_of_append _ _ _
    unfold addSourceNumber
    rw [if_neg (not_not_intro ⟨hc1, hc2⟩)]
    simp only [hscan, hget, hbr, hpr]
    rw [if_pos ⟨fun hc => hlne (List.isEmpty_iff.mp hc),
      fun hc => by simp [httpsYtPre, httpsS] at hc, hc3, hc4⟩]
  · intro m url hscan
    unfold addSourceNumber
    split
    · rfl
    · simp [hscan]
  · intro m url vid hscan hget
    unfold addSourceNumber
    split
    · rfl
    · simp [hscan, hget]

/-- Witness for `citation_rewrite_amended`: a concrete well-formed match
for the known source is rewritten with its label prefixed and its target
unchanged, and a concrete non-matching link passes through unchanged. -/
theorem citation_rewrite_amended_witness :
    addSourceNumber cxMapC9
        ('[' :: (labelFix ++ (']' :: '(' :: (httpsYtPre ++ abcIdS ++ tEq ++ dsFix ++ [')'])))) =
      openBracketParen ++ (Nat.repr 1).data ++ closeParenSpace ++ labelFix ++
        (']' :: '(' :: (httpsYtPre ++ abcIdS ++ tEq ++ dsFix ++ [')'])) ∧
    addSourceNumber cxMapC9 plainFix = plainFix :=
  ⟨citation_rewrite_amended.1 cxMapC9 labelFix abcIdS dsFix 1 (by decide) (by decide)
      (by decide) (by decide) (by decide) (by decide) (by decide) (by decide)
      (by decide) (by decide),
   citation_rewrite_amended.2.1 cxMapC9 plainFix (by decide)⟩

end YT
